import Mathlib

/-!
# Verification of the Fiber chain frontend core

Shallow embedding of the core of `merkle3/fiberai-nextjs-template`:
the HTTP and WebSocket RPC transports (`createFiberTransport`,
`createFiberWebSocketTransport` in `fiberChain.ts`) and the `FiberUtils`
class (`web3-utils` layer): the FIFO transaction queue, the
`decodeSolidityError` helper, and the shared preconfs subscription
fan-out.  JavaScript is single-threaded with cooperative scheduling, so
stateful code is embedded as explicit state-passing step functions over
event traces, where an event marks either a synchronous entry point
(a method call running to its first `await`) or the completion of an
awaited operation / a socket callback firing.
-/

namespace FiberChain

/-! ## RPC method mapper

Both transports rewrite exactly one outbound JSON-RPC method name.
The HTTP transport (`createFiberTransport`) does it inline in the fetch
body; the WebSocket transport (`createFiberWebSocketTransport`) does it
inline in `transport.request` (`mappedMethod`).  Both are the ternary
`method === "eth_sendRawTransaction" ? "fiber_sendRawTransaction" : method`.
-/

/-- The method-name rewrite in `createFiberTransport`'s request body. -/
def httpMappedMethod (method : String) : String :=
  if method = "eth_sendRawTransaction" then "fiber_sendRawTransaction" else method

/-- The method-name rewrite (`mappedMethod`) in the WebSocket transport's
`transport.request`. -/
def wsMappedMethod (method : String) : String :=
  if method = "eth_sendRawTransaction" then "fiber_sendRawTransaction" else method

/-- A JSON-RPC request envelope `{jsonrpc, method, params, id}`.  The
parameter payload is kept abstract (type `α`): the code never inspects it. -/
structure RpcRequest (α : Type) where
  jsonrpc : String
  method : String
  params : α
  id : Nat

/-- The body built by `createFiberTransport` for an outbound request:
`{jsonrpc:"2.0", method: mapped, params, id:1}`. -/
def httpRequestBody {α : Type} (method : String) (params : α) : RpcRequest α :=
  ⟨"2.0", httpMappedMethod method, params, 1⟩

/-- The message built by the WebSocket transport's `transport.request`:
`{jsonrpc:"2.0", method: mappedMethod, params, id}`. -/
def wsRequestMessage {α : Type} (method : String) (params : α) (id : Nat) : RpcRequest α :=
  ⟨"2.0", wsMappedMethod method, params, id⟩

/-! ## WebSocket transport: connection / reconnect / close state

`createFiberWebSocketTransport` closes over `ws`, `requestId`,
`reconnectAttempts`, the constants `maxReconnectAttempts = 5` and
`reconnectDelay = 1000`, and the `pendingRequests` map.  The pending map
is modelled by its list of keys (the handlers only matter through which
ids get settled, which the step functions report explicitly).
-/

/-- A browser WebSocket `readyState`. -/
inductive ReadyState where
  | connecting
  | opened
  | closing
  | closed
deriving DecidableEq, Repr

/-- `maxReconnectAttempts` in `createFiberWebSocketTransport`. -/
def maxReconnectAttempts : Nat := 5

/-- `reconnectDelay` (ms) in `createFiberWebSocketTransport`. -/
def reconnectDelay : Nat := 1000

/-- The mutable state closed over by `createFiberWebSocketTransport`:
the socket (with its readyState) or `null`, the request-id counter, the
reconnect-attempt counter, and the keys of `pendingRequests`. -/
structure TransportState where
  ws : Option ReadyState
  requestId : Nat
  reconnectAttempts : Nat
  pending : List Nat
deriving DecidableEq, Repr

/-- The state right after `createFiberWebSocketTransport()` runs:
`ws = null`, `requestId = 1`, `reconnectAttempts = 0`, empty pending map. -/
def transportInit : TransportState :=
  ⟨none, 1, 0, []⟩

/-- `ws.onopen`: logs, resets `reconnectAttempts` to 0 (the socket is now
open). -/
def handleOpen (s : TransportState) : TransportState :=
  { s with ws := some .opened, reconnectAttempts := 0 }

/-- `ws.onclose (event)`: sets `ws = null`, rejects every pending request
with "WebSocket connection closed" and deletes it, then, if the close code
is not 1000 and `reconnectAttempts < maxReconnectAttempts`, increments the
counter and schedules one reconnect after `reconnectDelay * reconnectAttempts`
(the counter value after the increment).  Returns the new state, the
rejections issued (id, message), and the scheduled reconnect delay if any. -/
def handleClose (code : Nat) (s : TransportState) :
    TransportState × List (Nat × String) × Option Nat :=
  let rejections := s.pending.map (fun id => (id, "WebSocket connection closed"))
  if code ≠ 1000 ∧ s.reconnectAttempts < maxReconnectAttempts then
    let n := s.reconnectAttempts + 1
    ({ s with ws := none, pending := [], reconnectAttempts := n },
     rejections, some (reconnectDelay * n))
  else
    ({ s with ws := none, pending := [] }, rejections, none)

/-- The transport's `close()`: if the socket exists and is OPEN or
CONNECTING, calls `ws.close(1000, "Transport closed")`; sets `ws = null`
and `reconnectAttempts = maxReconnectAttempts`; rejects every pending
request with "WebSocket transport closed" and deletes it.  Returns the new
state, the `ws.close` call made (code, reason) if any, and the rejections. -/
def transportClose (s : TransportState) :
    TransportState × Option (Nat × String) × List (Nat × String) :=
  let closeCall : Option (Nat × String) :=
    match s.ws with
    | some rs => if rs = .opened ∨ rs = .connecting then some (1000, "Transport closed") else none
    | none => none
  let rejections := s.pending.map (fun id => (id, "WebSocket transport closed"))
  ({ s with ws := none, reconnectAttempts := maxReconnectAttempts, pending := [] },
   closeCall, rejections)

end FiberChain

namespace FiberChain

/-! ## Transaction submission queue (`FiberUtils`)

`writeContract` pushes an entry onto `transactionQueue` and then calls
`processTransactionQueue()` (not awaited).  `processTransactionQueue`
returns at once if `isProcessingQueue` is set or the queue is empty;
otherwise it sets the flag and loops: `shift()` the head, `await
executeTransaction(...)` (the only suspension point), resolve/reject the
entry, re-check the queue; when empty it clears the flag.  JavaScript is
single-threaded, so the observable interleavings are exactly traces of two
atomic events: a `submit` (one `writeContract` call running through the
push and the synchronous prefix of `processTransactionQueue` up to the
first `await`) and a `complete` (the awaited `executeTransaction` settling
and the drain loop running synchronously to its next `await` or exit).
Queue entries are identified by abstract labels. -/

/-- One atomic scheduler event of the transaction queue. -/
inductive QEvent where
  | submit (id : Nat)
  | complete
deriving DecidableEq, Repr

/-- Observable state of the queue machinery: `queue` is `transactionQueue`
(entries not yet shifted), `processing` is `isProcessingQueue`, `current`
is the entry whose `executeTransaction` is being awaited, `invoked` records
in order each entry passed to `executeTransaction`, `settled` records in
order each entry whose result was resolved or rejected. -/
structure QueueState where
  queue : List Nat
  processing : Bool
  current : Option Nat
  invoked : List Nat
  settled : List Nat
deriving DecidableEq, Repr

/-- Initial queue state: empty queue, no drain worker running. -/
def qInit : QueueState := ⟨[], false, none, [], []⟩

/-- One event of the queue machinery.

`submit id`: `transactionQueue.push(entry)`, then `processTransactionQueue()`
runs synchronously: if `isProcessingQueue` it returns; otherwise it sets the
flag, shifts the head and starts awaiting its `executeTransaction`.

`complete`: the awaited `executeTransaction` settles; the drain loop
resolves/rejects that entry, re-checks the queue, and either shifts the next
head (starting its execution) or clears `isProcessingQueue` and stops.  A
`complete` with no execution in flight is a no-op (cannot arise). -/
def qStep (s : QueueState) : QEvent → QueueState
  | .submit id =>
      let q := s.queue ++ [id]
      if s.processing then { s with queue := q }
      else
        match q with
        | [] => { s with queue := q }
        | h :: t =>
            { queue := t, processing := true, current := some h,
              invoked := s.invoked ++ [h], settled := s.settled }
  | .complete =>
      match s.current with
      | none => s
      | some c =>
          let d := s.settled ++ [c]
          match s.queue with
          | [] => { queue := [], processing := false, current := none,
                    invoked := s.invoked, settled := d }
          | h :: t =>
              { queue := t, processing := true, current := some h,
                invoked := s.invoked ++ [h], settled := d }

/-- Run the queue machinery over a trace of events from a given state. -/
def qRunFrom (s : QueueState) (evs : List QEvent) : QueueState :=
  evs.foldl qStep s

/-- Run the queue machinery over a trace of events from the initial state. -/
def qRun (evs : List QEvent) : QueueState :=
  qRunFrom qInit evs

/-- The submission (enqueue) order of a trace: the `submit` labels in trace
order. -/
def qSubmitted (evs : List QEvent) : List Nat :=
  evs.filterMap fun e => match e with | .submit id => some id | .complete => none

/-- Invariant of the queue machinery relative to the ids submitted so far:
the submission order splits as invoked entries followed by the still-queued
entries; the invoked entries split as settled entries followed by the one in
flight; the drain worker runs iff an execution is in flight; and an idle
worker leaves an empty queue. -/
def QInv (subs : List Nat) (s : QueueState) : Prop :=
  subs = s.invoked ++ s.queue
  ∧ s.invoked = s.settled ++ s.current.toList
  ∧ (s.processing = true ↔ s.current.isSome = true)
  ∧ (s.processing = false → s.queue = [])

theorem qSubmitted_submit (id : Nat) : qSubmitted [QEvent.submit id] = [id] := rfl

theorem qSubmitted_complete : qSubmitted [QEvent.complete] = [] := rfl

theorem qSubmitted_cons (e : QEvent) (rest : List QEvent) :
    qSubmitted (e :: rest) = qSubmitted [e] ++ qSubmitted rest := by
  cases e <;> simp [qSubmitted]

theorem qInv_init : QInv [] qInit := by
  refine ⟨rfl, rfl, by simp [qInit], fun _ => rfl⟩

theorem qInv_step (subs : List Nat) (s : QueueState) (e : QEvent)
    (h : QInv subs s) :
    QInv (subs ++ (qSubmitted [e])) (qStep s e) := by
  obtain ⟨h1, h2, h3, h4⟩ := h
  cases e with
  | submit id =>
      rw [qSubmitted_submit]
      by_cases hp : s.processing = true
      · -- drain worker already running: only the queue grows
        have hstep : qStep s (.submit id) = { s with queue := s.queue ++ [id] } := by
          simp [qStep, hp]
        rw [hstep]
        exact ⟨by simp [h1], h2, h3, by simp [hp]⟩
      · -- worker idle: queue was empty, the new entry starts executing
        have hp' : s.processing = false := by simpa using hp
        have hq : s.queue = [] := h4 hp'
        have hc : s.current = none := by
          cases hcur : s.current with
          | none => rfl
          | some c =>
              have hpt : s.processing = true := h3.mpr (by simp [hcur])
              rw [hp'] at hpt
              exact absurd hpt (by simp)
        have hstep : qStep s (.submit id) =
            ⟨[], true, some id, s.invoked ++ [id], s.settled⟩ := by
          simp [qStep, hp', hq]
        rw [hstep]
        refine ⟨?_, ?_, by simp, by simp⟩
        · simp [h1, hq]
        · simp [h2, hc]
  | complete =>
      rw [qSubmitted_complete, List.append_nil]
      cases hcur : s.current with
      | none =>
          have hstep : qStep s .complete = s := by simp [qStep, hcur]
          rw [hstep]
          exact ⟨h1, h2, h3, h4⟩
      | some c =>
          cases hq : s.queue with
          | nil =>
              have hstep : qStep s .complete =
                  ⟨[], false, none, s.invoked, s.settled ++ [c]⟩ := by
                simp [qStep, hcur, hq]
              rw [hstep]
              refine ⟨by simpa [hq] using h1, by simpa [hcur] using h2,
                by simp, fun _ => rfl⟩
          | cons x t =>
              have hstep : qStep s .complete =
                  ⟨t, true, some x, s.invoked ++ [x], s.settled ++ [c]⟩ := by
                simp [qStep, hcur, hq]
              rw [hstep]
              refine ⟨?_, ?_, by simp, by simp⟩
              · simp [h1, hq]
              · simp [h2, hcur]

theorem qInv_run (evs : List QEvent) : QInv (qSubmitted evs) (qRun evs) := by
  suffices H : ∀ (evs : List QEvent) (subs : List Nat) (s : QueueState),
      QInv subs s → QInv (subs ++ qSubmitted evs) (qRunFrom s evs) by
    simpa using H evs [] qInit qInv_init
  intro evs
  induction evs with
  | nil => intro subs s h; simpa [qRunFrom, qSubmitted]
  | cons e rest ih =>
      intro subs s h
      have h' := qInv_step subs s e h
      have H := ih (subs ++ qSubmitted [e]) (qStep s e) h'
      rw [qSubmitted_cons, ← List.append_assoc]
      simpa [qRunFrom] using H

/-! ## WebSocket transport: request-id assignment

`transport.request` executes `const id = requestId++` and then
`pendingRequests.set(id, ...)`; a response, timeout, or close deletes
entries.  `requestId` starts at 1 and is never decremented or reset. -/

/-- One event of the request-id machinery: a request being sent (assigning
`requestId++` and inserting it into the pending map), or an entry being
deleted (matched response, timeout, or connection close). -/
inductive IdEvent where
  | send
  | remove (id : Nat)
deriving DecidableEq, Repr

/-- Request-id state: the `requestId` counter, the keys of
`pendingRequests`, and the ids assigned so far in order. -/
structure IdState where
  requestId : Nat
  pending : List Nat
  assigned : List Nat
deriving DecidableEq, Repr

/-- Initial request-id state: `requestId = 1`, empty pending map. -/
def idInit : IdState := ⟨1, [], []⟩

/-- One event: `send` runs `const id = requestId++; pendingRequests.set(id, …)`;
`remove id` runs `pendingRequests.delete(id)`. -/
def idStep (s : IdState) : IdEvent → IdState
  | .send =>
      ⟨s.requestId + 1, s.pending ++ [s.requestId], s.assigned ++ [s.requestId]⟩
  | .remove id =>
      { s with pending := s.pending.erase id }

/-- Run the request-id machinery over a trace of events. -/
def idRun (evs : List IdEvent) : IdState :=
  evs.foldl idStep idInit

/-- Invariant: every pending id is below the counter, the pending keys are
distinct, and the assigned ids are strictly increasing. -/
def IdInv (s : IdState) : Prop :=
  (∀ p ∈ s.pending, p < s.requestId)
  ∧ s.pending.Nodup
  ∧ s.assigned.Pairwise (· < ·)
  ∧ (∀ a ∈ s.assigned, a < s.requestId)

theorem idInv_init : IdInv idInit := by
  refine ⟨by simp [idInit], by simp [idInit], by simp [idInit], by simp [idInit]⟩

theorem idInv_step (s : IdState) (e : IdEvent) (h : IdInv s) :
    IdInv (idStep s e) := by
  obtain ⟨h1, h2, h3, h4⟩ := h
  cases e with
  | send =>
      refine ⟨?_, ?_, ?_, ?_⟩
      · show ∀ p ∈ s.pending ++ [s.requestId], p < s.requestId + 1
        intro p hp
        rcases List.mem_append.mp hp with hp | hp
        · exact Nat.lt_succ_of_lt (h1 p hp)
        · simp only [List.mem_singleton] at hp
          omega
      · show (s.pending ++ [s.requestId]).Nodup
        refine List.Nodup.append h2 (by simp) ?_
        intro a ha hb
        have := h1 a ha
        simp only [List.mem_singleton] at hb
        omega
      · show (s.assigned ++ [s.requestId]).Pairwise (· < ·)
        refine List.pairwise_append.mpr ⟨h3, by simp, ?_⟩
        intro a ha b hb
        have := h4 a ha
        simp only [List.mem_singleton] at hb
        omega
      · show ∀ a ∈ s.assigned ++ [s.requestId], a < s.requestId + 1
        intro a ha
        rcases List.mem_append.mp ha with ha | ha
        · exact Nat.lt_succ_of_lt (h4 a ha)
        · simp only [List.mem_singleton] at ha
          omega
  | remove id =>
      refine ⟨fun p hp => h1 p (List.mem_of_mem_erase hp),
        List.Nodup.erase id h2, h3, h4⟩

theorem idInv_run (evs : List IdEvent) : IdInv (idRun evs) := by
  suffices H : ∀ (evs : List IdEvent) (s : IdState), IdInv s →
      IdInv (evs.foldl idStep s) by
    exact H evs idInit idInv_init
  intro evs
  induction evs with
  | nil => intro s h; exact h
  | cons e rest ih =>
      intro s h
      exact ih (idStep s e) (idInv_step s e h)

/-! ## WebSocket transport: per-request settlement race

After `transport.request` sends a message with id `i`, three callbacks can
settle the caller's promise: `ws.onmessage` with a response whose id
matches (`pendingRequests.get` then `delete`, then resolve or reject),
the `setTimeout` callback scheduled for 30000 ms (`if pendingRequests.has(id)`
then `delete` and reject "Request timeout for method: …"), and `ws.onclose`
(rejects and deletes every pending entry).  Each of the three first checks
whether the id is still pending and is a no-op otherwise, so the promise is
settled by whichever fires first.  The race for one fixed request id is
embedded as a fold over the time-ordered trace of these events. -/

/-- The request timeout (ms) passed to `setTimeout` in `transport.request`. -/
def requestTimeoutMs : Nat := 30000

/-- An event that can settle one pending request: a response with matching
id arriving, the request's timeout firing, or the socket closing. -/
inductive ReqEvent where
  | response
  | timeoutFire
  | socketClose
deriving DecidableEq, Repr

/-- How a request's promise was settled. -/
inductive ReqOutcome where
  | resolved
  | timedOut
  | closedConn
deriving DecidableEq, Repr

/-- The settlement each event produces when the id is still pending:
a matching response resolves (or rejects with the RPC error — either way
the promise is settled by the response); the timeout rejects with the
timeout error; a close rejects with the closed-connection error. -/
def settleOf : ReqEvent → ReqOutcome
  | .response => .resolved
  | .timeoutFire => .timedOut
  | .socketClose => .closedConn

/-- State of one request: whether its id is still in `pendingRequests`, and
the settlement (time, outcome) of its promise, if settled. -/
structure ReqState where
  pending : Bool
  outcome : Option (Nat × ReqOutcome)
deriving DecidableEq, Repr

/-- State right after `transport.request` stored the handlers and sent. -/
def reqInit : ReqState := ⟨true, none⟩

/-- One timed event: each handler first checks that the id is still in the
pending map; if so it deletes the entry and settles the promise, otherwise
it does nothing (a promise settles at most once). -/
def reqStep (s : ReqState) (te : Nat × ReqEvent) : ReqState :=
  if s.pending then ⟨false, some (te.1, settleOf te.2)⟩ else s

/-- Run the settlement race over a time-ordered trace of events. -/
def reqRun (trace : List (Nat × ReqEvent)) : ReqState :=
  trace.foldl reqStep reqInit

theorem reqRun_settled_fix (s : ReqState) (h : s.pending = false)
    (trace : List (Nat × ReqEvent)) : trace.foldl reqStep s = s := by
  induction trace with
  | nil => rfl
  | cons te rest ih => simpa [reqStep, h] using ih

/-! ## Preconfs subscription fan-out (`FiberUtils`)

Shared state: `preconfsWebSocket` (with its readyState), `preconfsConnected`,
and the `preconfsCallbacks` set.  Listeners are abstract labels; the JS
`Set` is modelled as an insertion-ordered duplicate-free list.  `openCount`
counts `new WebSocket(wsUrl)` constructions (connection-open operations)
and `closeCount` counts `.close()` calls on the shared socket, so that
re-establishment is observable. -/

/-- Observable state of the preconfs fan-out. -/
structure PreconfState where
  ws : Option ReadyState
  connected : Bool
  callbacks : List Nat
  openCount : Nat
  closeCount : Nat
deriving DecidableEq, Repr

/-- Fresh `FiberUtils` instance: no shared socket, no listeners. -/
def preconfInit : PreconfState := ⟨none, false, [], 0, 0⟩

/-- `Set.add`: inserts unless already present. -/
def setAdd (l : List Nat) (x : Nat) : List Nat := if x ∈ l then l else l ++ [x]

/-- `Set.delete`: removes the element if present. -/
def setDelete (l : List Nat) (x : Nat) : List Nat := l.filter (· ≠ x)

/-- `initializePreconfsConnection`: returns early if a socket exists and is
connected, CONNECTING, or OPEN; otherwise closes any existing socket in a
bad state, then constructs `new WebSocket(wsUrl)` (readyState CONNECTING)
and installs the handlers. -/
def initializePreconfsConnection (s : PreconfState) : PreconfState :=
  match s.ws with
  | some rs =>
      if s.connected ∨ rs = .connecting ∨ rs = .opened then s
      else
        { ws := some .connecting, connected := false,
          callbacks := s.callbacks, openCount := s.openCount + 1,
          closeCount := s.closeCount + 1 }
  | none =>
      { s with ws := some .connecting, openCount := s.openCount + 1 }

/-- `subscribeToPreconfs(callback)`: initializes the shared connection
unless one exists with readyState CONNECTING or OPEN, then adds the
callback to the set.  (The returned unsubscribe closure is
`unsubscribePreconfs`.) -/
def subscribeToPreconfs (cb : Nat) (s : PreconfState) : PreconfState :=
  let s1 :=
    match s.ws with
    | none => initializePreconfsConnection s
    | some rs =>
        if rs ≠ .connecting ∧ rs ≠ .opened then initializePreconfsConnection s
        else s
  { s1 with callbacks := setAdd s1.callbacks cb }

/-- The unsubscribe closure returned by `subscribeToPreconfs`: deletes the
callback; if no callbacks remain and a socket exists, closes the shared
connection, nulls the socket, and clears the connected flag. -/
def unsubscribePreconfs (cb : Nat) (s : PreconfState) : PreconfState :=
  let cbs := setDelete s.callbacks cb
  if cbs.isEmpty ∧ s.ws.isSome then
    { ws := none, connected := false, callbacks := cbs,
      openCount := s.openCount, closeCount := s.closeCount + 1 }
  else
    { s with callbacks := cbs }

/-- The shared socket's `onopen` handler: sets `preconfsConnected` and (with
the socket OPEN) sends the `fiber_subscribePreconfs` control message. -/
def preconfsOnOpen (s : PreconfState) : PreconfState :=
  { s with ws := some .opened, connected := true }

/-- The shared socket's `onclose` handler: clears the connected flag and
nulls the socket. -/
def preconfsOnClose (s : PreconfState) : PreconfState :=
  { s with ws := none, connected := false }

/-! ## Transaction execution step (`FiberUtils.executeTransaction`) and
`writeContract` defaults

`executeTransaction` runs
`gasPrice = gasPrice || (await this.publicClient.getGasPrice())` — note the
JavaScript `||`, under which both `undefined` and `0n` are falsy — then
calls `walletClient.writeContract({address, abi, functionName, args,
account, gas, nonce, value, gasPrice})` and sets
`result.weiSpent = BigInt(result.gas_used) * gasPrice`.  The chain and the
wallet primitive are external collaborators, so the embedding takes the
value `getGasPrice()` would return and the primitive's raw result as
parameters, and reports the invocation it makes. -/

/-- Parameters of an `executeTransaction` call (one queue entry's `params`).
`abi`/`args` are opaque to all the code under scrutiny and are omitted;
amounts are integers standing for JS `bigint`s. -/
structure TxParams where
  address : String
  functionName : String
  account : Nat
  gas : Option Int
  gasPrice : Option Int
  nonce : Option Nat
  value : Option Int
deriving DecidableEq, Repr

/-- The raw result the external `walletClient.writeContract` primitive
returns (the fields `executeTransaction` reads or extends). -/
structure RawWriteResult where
  hash : String
  gas_used : Nat
  status : Bool
deriving DecidableEq, Repr

/-- The invocation `executeTransaction` makes on the underlying
`walletClient.writeContract` primitive. -/
structure WriteCall where
  address : String
  functionName : String
  account : Nat
  gas : Option Int
  nonce : Option Nat
  value : Int
  gasPrice : Int
deriving DecidableEq, Repr

/-- The result `executeTransaction` returns: the primitive's raw result
extended with `weiSpent`. -/
structure ExecResult where
  raw : RawWriteResult
  weiSpent : Int
deriving DecidableEq, Repr

/-- JS truthiness of the optional `gasPrice` bigint: `undefined` and `0n`
are falsy. -/
def bigintTruthy : Option Int → Bool
  | none => false
  | some v => v ≠ 0

/-- `FiberUtils.executeTransaction`: destructures with `value = BigInt(0)`,
resolves `gasPrice = gasPrice || (await getGasPrice())`, invokes the
contract-write primitive with the resolved gas price, and attaches
`weiSpent = BigInt(result.gas_used) * gasPrice`.  Returns the invocation
made, whether `getGasPrice()` was queried, and the result. -/
def executeTransaction (p : TxParams) (chainGasPrice : Int)
    (raw : RawWriteResult) : WriteCall × Bool × ExecResult :=
  let queried := !bigintTruthy p.gasPrice
  let gasPrice := if bigintTruthy p.gasPrice then p.gasPrice.getD 0 else chainGasPrice
  let value := p.value.getD 0
  (⟨p.address, p.functionName, p.account, p.gas, p.nonce, value, gasPrice⟩,
   queried,
   ⟨raw, (raw.gas_used : Int) * gasPrice⟩)

/-- The caller-visible arguments of `FiberUtils.writeContract`; `none`
means the property was omitted (JS `undefined`), so the destructuring
defaults `gas = BigInt(600000)`, `gasPrice = BigInt(1)`,
`value = BigInt(0)` apply. -/
structure WriteContractInput where
  address : String
  functionName : String
  account : Nat
  gas : Option Int
  gasPrice : Option Int
  nonce : Option Nat
  value : Option Int
deriving DecidableEq, Repr

/-- The `params` object `FiberUtils.writeContract` pushes onto
`transactionQueue`: the destructured arguments with their defaults
applied. -/
def writeContractQueueEntry (i : WriteContractInput) : TxParams :=
  ⟨i.address, i.functionName, i.account,
   some (i.gas.getD 600000), some (i.gasPrice.getD 1), i.nonce,
   some (i.value.getD 0)⟩

/-! ## `FiberUtils.decodeSolidityError`

JS strings are embedded as `List Char`.  `output.startsWith(p)` is
`strStartsWith output p`.  The two ABI decodes the source delegates to the
external viem library (`decodeErrorResult` with the `Error(string)` and
`Panic(uint256)` ABIs, and `hexToString`) are modelled from the standard
ABI encoding; a `none` result models the library throwing, which the
source catches.  Decoded bytes are read back as one character per byte
(exact for ASCII payloads). -/

/-- JS `String.startsWith`: does the first argument begin with the second? -/
def strStartsWith : List Char → List Char → Bool
  | _, [] => true
  | [], _ :: _ => false
  | c :: cs, p :: ps => c == p && strStartsWith cs ps

theorem strStartsWith_iff (out pat : List Char) :
    strStartsWith out pat = true ↔ out.take pat.length = pat := by
  induction pat generalizing out with
  | nil => simp [strStartsWith]
  | cons p ps ih =>
      cases out with
      | nil => simp [strStartsWith]
      | cons c cs => simp [strStartsWith, ih, List.take_succ_cons]

/-- Value of one hex digit (JS `parseInt(·, 16)` digit set). -/
def hexDigitVal (c : Char) : Option Nat :=
  if '0' ≤ c ∧ c ≤ '9' then some (c.toNat - '0'.toNat)
  else if 'a' ≤ c ∧ c ≤ 'f' then some (c.toNat - 'a'.toNat + 10)
  else if 'A' ≤ c ∧ c ≤ 'F' then some (c.toNat - 'A'.toNat + 10)
  else none

/-- Modelled from the external viem library's `hexToBytes` (inside
`hexToString`), missing from this repository: hex characters two at a time
into bytes; `none` models the library throwing on an odd length or an
invalid byte sequence. -/
def hexPairsToBytes : List Char → Option (List Nat)
  | [] => some []
  | [_] => none
  | hi :: lo :: rest => do
      let h ← hexDigitVal hi
      let l ← hexDigitVal lo
      let bs ← hexPairsToBytes rest
      pure ((16 * h + l) :: bs)

/-- Big-endian byte-list value (how an ABI word is read as a number). -/
def bytesToNat (bs : List Nat) : Nat :=
  bs.foldl (fun acc b => 256 * acc + b) 0

/-- Modelled from the external viem library's `decodeErrorResult` with the
`Error(string)` ABI, missing from this repository: after the 4-byte
selector, a 32-byte head word holds the byte offset of the string; at that
offset a 32-byte length word is followed by the string's bytes.  `none`
models the library throwing (non-hex data, short data, out-of-bounds
offset or length). -/
def decodeAbiString (hexData : List Char) : Option (List Nat) := do
  let bytes ← hexPairsToBytes hexData
  if 32 ≤ bytes.length then
    let off := bytesToNat (bytes.take 32)
    let tail := bytes.drop off
    if 32 ≤ tail.length then
      let len := bytesToNat (tail.take 32)
      let content := tail.drop 32
      if len ≤ content.length then pure (content.take len) else none
    else none
  else none

/-- Modelled from the external viem library's `decodeErrorResult` with the
`Panic(uint256)` ABI, missing from this repository: after the selector, one
32-byte word holds the panic code.  `none` models the library throwing. -/
def decodeAbiUint (hexData : List Char) : Option Nat := do
  let bytes ← hexPairsToBytes hexData
  if 32 ≤ bytes.length then pure (bytesToNat (bytes.take 32)) else none

/-- Helper for JS `parseInt(·, 16)`: accumulate the leading hex digits. -/
def parseIntHexLoop : Nat → List Char → Nat
  | acc, [] => acc
  | acc, c :: rest =>
      match hexDigitVal c with
      | none => acc
      | some d => parseIntHexLoop (16 * acc + d) rest

/-- JS `parseInt(s, 16)`: value of the longest leading run of hex digits;
`none` models `NaN` (no leading hex digit). -/
def parseIntHex (cs : List Char) : Option Nat :=
  match cs with
  | [] => none
  | c :: _ =>
      match hexDigitVal c with
      | none => none
      | some _ => some (parseIntHexLoop 0 cs)

/-- The manual fallback in `decodeSolidityError`'s `Error(string)` branch
(its `catch`): drop `0x` plus the 8 selector characters, skip the 64-char
offset word, `parseInt` the next 64 chars as the length, and hex-decode
`length * 2` characters of message.  A `NaN` length makes
`slice(128, NaN)` empty, so `hexToString("0x")` yields the empty string;
`none` models `hexToString` throwing on an invalid byte sequence (caught by
the outer catch). -/
def manualErrorDecode (output : List Char) : Option (List Nat) :=
  let errorData := output.drop 10
  let lengthHex := (errorData.drop 64).take 64
  match parseIntHex lengthHex with
  | none => some []
  | some len => hexPairsToBytes ((errorData.drop 128).take (len * 2))

/-- Decoded bytes read back as a JS string, one character per byte
(viem `hexToString`; exact for ASCII payloads). -/
def bytesToChars (bs : List Nat) : List Char := bs.map Char.ofNat

/-- `FiberUtils.decodeSolidityError` on `List Char` strings; `none` is the
`null` return (empty/non-`0x` input, or an exception reaching the outer
catch).  The `Error(string)` branch first tries the viem decode and falls
back to the manual decode; the `Panic(uint256)` branch falls back to the
literal `"Panic"`; any other `0x` input reports its 4-byte selector. -/
def decodeSolidityError (output : List Char) : Option (List Char) :=
  if ¬ (strStartsWith output "0x".data = true) then none
  else if strStartsWith output "0x08c379a0".data = true then
    match decodeAbiString (output.drop 10) with
    | some msg => some (bytesToChars msg)
    | none =>
        match manualErrorDecode output with
        | some msg => some (bytesToChars msg)
        | none => none
  else if strStartsWith output "0x4e487b71".data = true then
    match decodeAbiUint (output.drop 10) with
    | some code => some (("Panic(" ++ Nat.repr code ++ ")").data)
    | none => some ("Panic".data)
  else
    some ("Unknown error (".data ++ output.take 10 ++ ")".data)

/-- A list starting with the `Error(string)` selector also starts with
`0x`, and does not start with the `Panic(uint256)` selector (and vice
versa): the selectors differ within their common length. -/
theorem strStartsWith_selector_facts (output : List Char) :
    (strStartsWith output "0x08c379a0".data = true →
      strStartsWith output "0x".data = true)
    ∧ (strStartsWith output "0x4e487b71".data = true →
      strStartsWith output "0x".data = true)
    ∧ ¬ (strStartsWith output "0x08c379a0".data = true
        ∧ strStartsWith output "0x4e487b71".data = true) := by
  refine ⟨fun h => ?_, fun h => ?_, fun ⟨h1, h2⟩ => ?_⟩
  · rw [strStartsWith_iff] at h ⊢
    have h2 := congrArg (List.take 2) h
    rw [List.take_take] at h2
    simpa using h2
  · rw [strStartsWith_iff] at h ⊢
    have h2 := congrArg (List.take 2) h
    rw [List.take_take] at h2
    simpa using h2
  · rw [strStartsWith_iff] at h1 h2
    have : ("0x08c379a0".data : List Char) = "0x4e487b71".data := by
      have e1 : List.take 10 output = "0x08c379a0".data := h1
      have e2 : List.take 10 output = "0x4e487b71".data := h2
      rw [← e1, e2]
    exact absurd this (by decide)

/-- The ABI encoding of `Error("abc")`: selector `0x08c379a0`, offset word
32, length word 3, bytes `616263`. -/
def errorAbcPayload : List Char :=
  "0x08c379a000000000000000000000000000000000000000000000000000000000000000200000000000000000000000000000000000000000000000000000000000000003616263".data

/-- The ABI encoding of `Panic(0x11)` (arithmetic overflow): selector
`0x4e487b71`, one word with value 17. -/
def panicPayload : List Char :=
  "0x4e487b710000000000000000000000000000000000000000000000000000000000000011".data

/-- A revert payload whose 4-byte selector matches neither standard error. -/
def unknownPayload : List Char := "0xdeadbeef".data

/-! ### Theorems: method mapper (C5) and reconnect policy (C2), close (C3) -/

/-- **C1.** For every trace of write submissions (possibly interleaved
arbitrarily with execution completions), `executeTransaction` is invoked for
the entries in exactly their enqueue order: the invoked entries are a prefix
of the submission order (and together with the still-queued entries make it
up exactly); each invoked entry beyond the settled ones is the single one
currently in flight (its execution completes — its result resolved or
rejected — before the next entry is popped); and the drain worker runs iff
exactly one execution is in flight, so at most one drain worker runs at any
time. -/
theorem queue_fifo_execution (evs : List QEvent) :
    (qRun evs).invoked ++ (qRun evs).queue = qSubmitted evs
    ∧ (qRun evs).invoked = (qRun evs).settled ++ (qRun evs).current.toList
    ∧ ((qRun evs).processing = true ↔ (qRun evs).current.isSome = true)
    ∧ (qRun evs).invoked <+: qSubmitted evs
    ∧ (qRun evs).settled <+: (qRun evs).invoked := by
  obtain ⟨h1, h2, h3, _⟩ := qInv_run evs
  exact ⟨h1.symm, h2, h3, ⟨(qRun evs).queue, h1.symm⟩,
    ⟨(qRun evs).current.toList, h2.symm⟩⟩

/-- **C9.** Over every trace of request sends and pending-map deletions, the
request-id counter assigns a strictly increasing id to every successive
request; consequently the pending-request ids are pairwise distinct and
every outstanding id is strictly below the next id to be assigned, so no id
is reused while a request with that id is still in the pending map. -/
theorem request_ids_strictly_increasing (evs : List IdEvent) :
    (idRun evs).assigned.Pairwise (· < ·)
    ∧ (idRun evs).pending.Nodup
    ∧ ∀ p ∈ (idRun evs).pending, p < (idRun evs).requestId := by
  obtain ⟨h1, h2, h3, _⟩ := idInv_run evs
  exact ⟨h3, h2, h1⟩

/-- Witness for `request_ids_strictly_increasing`: after two sends and the
deletion of id 1, id 2 is the outstanding entry and it is below the next
id to be assigned (3). -/
theorem request_ids_strictly_increasing_witness :
    2 ∈ (idRun [IdEvent.send, IdEvent.send, IdEvent.remove 1]).pending
    ∧ 2 < (idRun [IdEvent.send, IdEvent.send, IdEvent.remove 1]).requestId := by
  have h := (request_ids_strictly_increasing
    [IdEvent.send, IdEvent.send, IdEvent.remove 1]).2.2
  exact ⟨by decide, h 2 (by decide)⟩

/-- **C5.** The RPC method mapper, applied on every outbound request of both
the HTTP and the WebSocket transport, substitutes "eth_sendRawTransaction"
with "fiber_sendRawTransaction" and maps every other method name to itself;
parameters are always passed through unchanged in the built envelope; the
mapping is a total pure function of the method name. -/
theorem mapper_maps_exactly_one_method {α : Type} (method : String) (params : α) (id : Nat) :
    httpMappedMethod "eth_sendRawTransaction" = "fiber_sendRawTransaction"
    ∧ wsMappedMethod "eth_sendRawTransaction" = "fiber_sendRawTransaction"
    ∧ (method ≠ "eth_sendRawTransaction" →
        httpMappedMethod method = method ∧ wsMappedMethod method = method)
    ∧ (httpRequestBody method params).params = params
    ∧ (wsRequestMessage method params id).params = params := by
  refine ⟨rfl, rfl, fun h => ⟨?_, ?_⟩, rfl, rfl⟩ <;>
    simp [httpMappedMethod, wsMappedMethod, h]

/-- Witness for `mapper_maps_exactly_one_method` at `method = "eth_call"`,
`params = [2, 3]`, `id = 7`. -/
theorem mapper_maps_exactly_one_method_witness :
    ("eth_call" ≠ "eth_sendRawTransaction")
    ∧ (httpMappedMethod "eth_call" = "eth_call" ∧ wsMappedMethod "eth_call" = "eth_call") := by
  have h := mapper_maps_exactly_one_method (α := List Nat) "eth_call" [2, 3] 7
  exact ⟨by decide, h.2.2.1 (by decide)⟩

/-- **C2.** On every abnormal close (code ≠ 1000) while the attempt counter
is below the budget of 5, exactly one reconnect is scheduled, with delay
`1000 * n` where `n` is the counter after incrementing; a successful open
resets the counter to zero; once the counter has reached the budget, no
reconnect is scheduled. -/
theorem reconnect_policy (s : TransportState) (code : Nat) :
    (code ≠ 1000 → s.reconnectAttempts < maxReconnectAttempts →
      (handleClose code s).2.2 = some (reconnectDelay * (s.reconnectAttempts + 1))
      ∧ (handleClose code s).1.reconnectAttempts = s.reconnectAttempts + 1)
    ∧ (handleOpen s).reconnectAttempts = 0
    ∧ (maxReconnectAttempts ≤ s.reconnectAttempts → (handleClose code s).2.2 = none) := by
  refine ⟨fun hc hb => ?_, rfl, fun hb => ?_⟩
  · simp [handleClose, hc, hb]
  · simp [handleClose, Nat.not_lt.mpr hb]

/-- Witness for `reconnect_policy`: abnormal close code 1006 with 2 prior
attempts schedules a 3000 ms reconnect and bumps the counter to 3; with the
budget of 5 already used, the same close schedules nothing. -/
theorem reconnect_policy_witness :
    ((1006 : Nat) ≠ 1000 ∧ (2 : Nat) < maxReconnectAttempts)
    ∧ ((handleClose 1006 ⟨some .opened, 4, 2, [9]⟩).2.2 = some (reconnectDelay * 3)
       ∧ (handleClose 1006 ⟨some .opened, 4, 2, [9]⟩).1.reconnectAttempts = 3)
    ∧ (maxReconnectAttempts ≤ 5
       ∧ (handleClose 1006 ⟨none, 4, 5, []⟩).2.2 = none) := by
  have h := (reconnect_policy ⟨some .opened, 4, 2, [9]⟩ 1006).1 (by decide) (by decide)
  have h5 := (reconnect_policy ⟨none, 4, 5, []⟩ 1006).2.2 (by decide)
  exact ⟨⟨by decide, by decide⟩, h, by decide, h5⟩

/-- **C3.** `close()` on a transport whose socket is open or connecting
closes the socket with the normal-closure code 1000, pins the retry counter
at the budget ceiling 5, rejects every currently pending request with the
closed-connection error, leaves the pending map empty, and afterwards no
close event can schedule an automatic reconnect. -/
theorem close_transport (s : TransportState)
    (h : s.ws = some .opened ∨ s.ws = some .connecting) :
    (transportClose s).2.1 = some (1000, "Transport closed")
    ∧ (transportClose s).1.reconnectAttempts = maxReconnectAttempts
    ∧ (transportClose s).2.2 = s.pending.map (fun id => (id, "WebSocket transport closed"))
    ∧ (transportClose s).1.pending = []
    ∧ ∀ code, (handleClose code (transportClose s).1).2.2 = none := by
  refine ⟨?_, rfl, rfl, rfl, fun code => ?_⟩
  · rcases h with h | h <;> simp [transportClose, h]
  · simp [transportClose, handleClose]

/-- Witness for `close_transport`: closing a transport with an open socket
and two pending requests. -/
theorem close_transport_witness :
    ((⟨some .opened, 6, 1, [3, 5]⟩ : TransportState).ws = some .opened
      ∨ (⟨some .opened, 6, 1, [3, 5]⟩ : TransportState).ws = some .connecting)
    ∧ ((transportClose ⟨some .opened, 6, 1, [3, 5]⟩).2.1 = some (1000, "Transport closed")
       ∧ (transportClose ⟨some .opened, 6, 1, [3, 5]⟩).1.reconnectAttempts = maxReconnectAttempts
       ∧ (transportClose ⟨some .opened, 6, 1, [3, 5]⟩).2.2 =
           [(3, "WebSocket transport closed"), (5, "WebSocket transport closed")]
       ∧ (transportClose ⟨some .opened, 6, 1, [3, 5]⟩).1.pending = []
       ∧ ∀ code, (handleClose code (transportClose ⟨some .opened, 6, 1, [3, 5]⟩).1).2.2 = none) := by
  have h := close_transport ⟨some .opened, 6, 1, [3, 5]⟩ (Or.inl rfl)
  exact ⟨Or.inl rfl, h.1, h.2.1, h.2.2.1, h.2.2.2.1, h.2.2.2.2⟩

/-- **C4.** For a request whose matching response never arrives and whose
socket does not close, the only settlement event in its trace is the timeout
scheduled at exactly `requestTimeoutMs = 30000` ms: the promise is rejected
with the timeout outcome at that time and the pending map no longer holds
the id.  In general, over any time-ordered event trace, the earliest of the
three events (matching response, timeout firing, socket close) settles the
promise — with that event's outcome at that event's time — and every later
event is a no-op. -/
theorem request_timeout_race (t : Nat) (e : ReqEvent)
    (rest : List (Nat × ReqEvent)) :
    ((reqRun [(requestTimeoutMs, .timeoutFire)]).outcome
        = some (requestTimeoutMs, .timedOut)
      ∧ (reqRun [(requestTimeoutMs, .timeoutFire)]).pending = false)
    ∧ ((reqRun ((t, e) :: rest)).outcome = some (t, settleOf e)
      ∧ (reqRun ((t, e) :: rest)).pending = false) := by
  have hstep : reqStep reqInit (t, e) = ⟨false, some (t, settleOf e)⟩ := by
    simp [reqStep, reqInit]
  have hrun : reqRun ((t, e) :: rest) = ⟨false, some (t, settleOf e)⟩ := by
    show List.foldl reqStep (reqStep reqInit (t, e)) rest = _
    rw [hstep]
    exact reqRun_settled_fix _ rfl rest
  exact ⟨⟨rfl, rfl⟩, by rw [hrun], by rw [hrun]⟩

/-- **C6.** Removing the last registered preconfs listener closes the shared
WebSocket (one more `.close()` call), nulls it, clears the connected flag,
and empties the listener set; registering a new listener afterwards
establishes a fresh connection from scratch (one more `new WebSocket`
construction, readyState CONNECTING); and registering a listener while a
connection is OPEN or CONNECTING performs no new connection-open and leaves
the socket untouched. -/
theorem preconfs_lifecycle (s : PreconfState) (cb cbNew : Nat) :
    (s.callbacks = [cb] → s.ws.isSome = true →
      (unsubscribePreconfs cb s).ws = none
      ∧ (unsubscribePreconfs cb s).connected = false
      ∧ (unsubscribePreconfs cb s).callbacks = []
      ∧ (unsubscribePreconfs cb s).closeCount = s.closeCount + 1
      ∧ (subscribeToPreconfs cbNew (unsubscribePreconfs cb s)).openCount
          = s.openCount + 1
      ∧ (subscribeToPreconfs cbNew (unsubscribePreconfs cb s)).ws
          = some .connecting)
    ∧ ((s.ws = some .connecting ∨ s.ws = some .opened) →
      (subscribeToPreconfs cbNew s).openCount = s.openCount
      ∧ (subscribeToPreconfs cbNew s).ws = s.ws) := by
  constructor
  · intro hcb hws
    have hdel : setDelete s.callbacks cb = [] := by
      simp [setDelete, hcb]
    have hunsub : unsubscribePreconfs cb s =
        { ws := none, connected := false, callbacks := [],
          openCount := s.openCount, closeCount := s.closeCount + 1 } := by
      simp [unsubscribePreconfs, hdel, hws]
    rw [hunsub]
    refine ⟨rfl, rfl, rfl, rfl, ?_, ?_⟩ <;>
      simp [subscribeToPreconfs, initializePreconfsConnection, setAdd]
  · rintro (hws | hws) <;>
      simp [subscribeToPreconfs, hws, setAdd]

/-- Witness for `preconfs_lifecycle`: a connected fan-out whose only
listener is 4; unsubscribing it closes the socket, and re-subscribing
listener 9 re-opens a fresh one. -/
theorem preconfs_lifecycle_witness :
    ((⟨some .opened, true, [4], 1, 0⟩ : PreconfState).callbacks = [4]
      ∧ (⟨some .opened, true, [4], 1, 0⟩ : PreconfState).ws.isSome = true)
    ∧ ((unsubscribePreconfs 4 ⟨some .opened, true, [4], 1, 0⟩).ws = none
      ∧ (unsubscribePreconfs 4 ⟨some .opened, true, [4], 1, 0⟩).connected = false
      ∧ (unsubscribePreconfs 4 ⟨some .opened, true, [4], 1, 0⟩).callbacks = []
      ∧ (unsubscribePreconfs 4 ⟨some .opened, true, [4], 1, 0⟩).closeCount = 1
      ∧ (subscribeToPreconfs 9 (unsubscribePreconfs 4 ⟨some .opened, true, [4], 1, 0⟩)).openCount = 2
      ∧ (subscribeToPreconfs 9 (unsubscribePreconfs 4 ⟨some .opened, true, [4], 1, 0⟩)).ws
          = some .connecting)
    ∧ (((⟨some .opened, true, [4], 1, 0⟩ : PreconfState).ws = some .connecting
          ∨ (⟨some .opened, true, [4], 1, 0⟩ : PreconfState).ws = some .opened)
      ∧ (subscribeToPreconfs 9 ⟨some .opened, true, [4], 1, 0⟩).openCount = 1
      ∧ (subscribeToPreconfs 9 ⟨some .opened, true, [4], 1, 0⟩).ws = some .opened) := by
  have h := (preconfs_lifecycle ⟨some .opened, true, [4], 1, 0⟩ 4 9).1 rfl rfl
  have h2 := (preconfs_lifecycle ⟨some .opened, true, [4], 1, 0⟩ 4 9).2 (Or.inr rfl)
  exact ⟨⟨rfl, rfl⟩,
    ⟨h.1, h.2.1, h.2.2.1, h.2.2.2.1, h.2.2.2.2.1, h.2.2.2.2.2⟩,
    Or.inr rfl, h2.1, h2.2⟩

/-- **C7.** For every hex input to `decodeSolidityError`: if it begins with
the `Error(string)` selector `0x08c379a0` and its payload ABI-decodes to a
message, the function returns that embedded message; if it begins with the
`Panic(uint256)` selector `0x4e487b71` and its payload decodes to a code,
it returns the string `Panic(code)` containing the numeric code; for any
other input starting with `0x` whose selector matches neither, it returns
the fallback string `Unknown error (sel)` containing the input's 4-byte
selector (its first 10 characters). -/
theorem decode_solidity_error_branches (output : List Char) :
    (∀ msg, strStartsWith output "0x08c379a0".data = true →
      decodeAbiString (output.drop 10) = some msg →
      decodeSolidityError output = some (bytesToChars msg))
    ∧ (∀ code, strStartsWith output "0x4e487b71".data = true →
      decodeAbiUint (output.drop 10) = some code →
      decodeSolidityError output = some (("Panic(" ++ Nat.repr code ++ ")").data))
    ∧ (strStartsWith output "0x".data = true →
      strStartsWith output "0x08c379a0".data = false →
      strStartsWith output "0x4e487b71".data = false →
      decodeSolidityError output
        = some ("Unknown error (".data ++ output.take 10 ++ ")".data)) := by
  obtain ⟨hA, hB, hAB⟩ := strStartsWith_selector_facts output
  refine ⟨fun msg h8 hdec => ?_, fun code h4 hdec => ?_, fun h0 h8 h4 => ?_⟩
  · have h0 := hA h8
    simp [decodeSolidityError, h0, h8, hdec]
  · have h0 := hB h4
    have h8 : strStartsWith output "0x08c379a0".data = false := by
      cases hcase : strStartsWith output "0x08c379a0".data
      · rfl
      · exact absurd ⟨hcase, h4⟩ hAB
    simp [decodeSolidityError, h0, h8, h4, hdec]
  · simp [decodeSolidityError, h0, h8, h4]

set_option maxRecDepth 8000 in
/-- Witness for `decode_solidity_error_branches` on three concrete
payloads: `Error("abc")` decodes to `"abc"`, `Panic(0x11)` decodes to
`"Panic(17)"`, and selector `0xdeadbeef` yields the fallback string. -/
theorem decode_solidity_error_branches_witness :
    (strStartsWith errorAbcPayload "0x08c379a0".data = true
      ∧ decodeAbiString (errorAbcPayload.drop 10) = some [97, 98, 99]
      ∧ decodeSolidityError errorAbcPayload = some "abc".data)
    ∧ (strStartsWith panicPayload "0x4e487b71".data = true
      ∧ decodeAbiUint (panicPayload.drop 10) = some 17
      ∧ decodeSolidityError panicPayload = some "Panic(17)".data)
    ∧ (strStartsWith unknownPayload "0x".data = true
      ∧ strStartsWith unknownPayload "0x08c379a0".data = false
      ∧ strStartsWith unknownPayload "0x4e487b71".data = false
      ∧ decodeSolidityError unknownPayload
          = some "Unknown error (0xdeadbeef)".data) := by
  refine ⟨⟨rfl, rfl, ?_⟩, ⟨rfl, rfl, ?_⟩, ⟨rfl, rfl, rfl, ?_⟩⟩
  · exact (decode_solidity_error_branches errorAbcPayload).1 [97, 98, 99] rfl rfl
  · exact (decode_solidity_error_branches panicPayload).2.1 17 rfl rfl
  · exact (decode_solidity_error_branches unknownPayload).2.2 rfl rfl rfl

/-- **C8 counterexample.** A queue entry with the caller-supplied gas price
`0` (reachable: `writeContract({..., gasPrice: 0n})` keeps `0n`, since the
destructuring default only replaces `undefined`): JavaScript `||` treats
`0n` as falsy, so `executeTransaction` does NOT use the supplied gas price —
it queries the chain (here returning 7) and invokes the primitive with 7,
contradicting the claim that a supplied gas price is always used. -/
theorem gas_price_resolution_counterexample :
    (executeTransaction ⟨"0xC", "increment", 0, some 600000, some 0, none, some 0⟩ 7
        ⟨"0xh", 21000, true⟩).1.gasPrice = 7
    ∧ (7 : Int) ≠ 0
    ∧ (executeTransaction ⟨"0xC", "increment", 0, some 600000, some 0, none, some 0⟩ 7
        ⟨"0xh", 21000, true⟩).2.1 = true := by
  refine ⟨?_, by decide, ?_⟩ <;> rfl

/-- **C8 (amended).** For every queue entry executed by
`executeTransaction`: the effective gas price is the caller-supplied gas
price when a nonzero one is supplied (and then the chain is not queried);
when the gas price is absent or zero (falsy under the JS `||`), the value
freshly queried from the chain via `getGasPrice` is used; the underlying
contract-write primitive is invoked with that effective gas price; and the
returned result carries `weiSpent = gas_used * effective gas price` in
exact integer arithmetic. -/
theorem gas_price_resolution (p : TxParams) (chainGasPrice : Int)
    (raw : RawWriteResult) :
    (∀ v : Int, p.gasPrice = some v → v ≠ 0 →
      (executeTransaction p chainGasPrice raw).1.gasPrice = v
      ∧ (executeTransaction p chainGasPrice raw).2.1 = false)
    ∧ ((p.gasPrice = none ∨ p.gasPrice = some 0) →
      (executeTransaction p chainGasPrice raw).1.gasPrice = chainGasPrice
      ∧ (executeTransaction p chainGasPrice raw).2.1 = true)
    ∧ (executeTransaction p chainGasPrice raw).2.2.weiSpent
        = (raw.gas_used : Int) * (executeTransaction p chainGasPrice raw).1.gasPrice := by
  refine ⟨fun v hv hnz => ?_, fun h => ?_, rfl⟩
  · constructor <;> simp [executeTransaction, bigintTruthy, hv, hnz]
  · rcases h with h | h <;> constructor <;>
      simp [executeTransaction, bigintTruthy, h]

/-- Witness for `gas_price_resolution`: an entry supplying the nonzero gas
price 5 is executed with 5 and without querying the chain. -/
theorem gas_price_resolution_witness :
    ((⟨"0xC", "increment", 0, some 600000, some 5, none, some 0⟩ : TxParams).gasPrice = some 5
      ∧ (5 : Int) ≠ 0)
    ∧ ((executeTransaction ⟨"0xC", "increment", 0, some 600000, some 5, none, some 0⟩ 7
          ⟨"0xh", 21000, true⟩).1.gasPrice = 5
      ∧ (executeTransaction ⟨"0xC", "increment", 0, some 600000, some 5, none, some 0⟩ 7
          ⟨"0xh", 21000, true⟩).2.1 = false)
    ∧ ((⟨"0xC", "increment", 0, some 600000, none, none, some 0⟩ : TxParams).gasPrice = none
      ∧ (executeTransaction ⟨"0xC", "increment", 0, some 600000, none, none, some 0⟩ 7
          ⟨"0xh", 21000, true⟩).1.gasPrice = 7
      ∧ (executeTransaction ⟨"0xC", "increment", 0, some 600000, none, none, some 0⟩ 7
          ⟨"0xh", 21000, true⟩).2.1 = true) := by
  have h := (gas_price_resolution
    ⟨"0xC", "increment", 0, some 600000, some 5, none, some 0⟩ 7
    ⟨"0xh", 21000, true⟩).1 5 rfl (by decide)
  have hq := (gas_price_resolution
    ⟨"0xC", "increment", 0, some 600000, none, none, some 0⟩ 7
    ⟨"0xh", 21000, true⟩).2.1 (Or.inl rfl)
  exact ⟨⟨rfl, by decide⟩, h, rfl, hq.1, hq.2⟩

/-- **C10.** A `writeContract` call that omits `gas`, `gasPrice`, or `value`
enqueues an entry carrying the defaults `gas = 600000`, `gasPrice = 1`,
`value = 0`; in particular an entry from a call omitting `gasPrice` reaches
`executeTransaction` with gas price 1 (truthy), so the fresh gas-price
query is never triggered and the primitive is invoked with gas price 1. -/
theorem write_contract_defaults (i : WriteContractInput)
    (chainGasPrice : Int) (raw : RawWriteResult) :
    (i.gas = none → (writeContractQueueEntry i).gas = some 600000)
    ∧ (i.gasPrice = none → (writeContractQueueEntry i).gasPrice = some 1)
    ∧ (i.value = none → (writeContractQueueEntry i).value = some 0)
    ∧ (i.gasPrice = none →
        (executeTransaction (writeContractQueueEntry i) chainGasPrice raw).2.1 = false
        ∧ (executeTransaction (writeContractQueueEntry i) chainGasPrice raw).1.gasPrice = 1) := by
  refine ⟨fun h => by simp [writeContractQueueEntry, h],
    fun h => by simp [writeContractQueueEntry, h],
    fun h => by simp [writeContractQueueEntry, h],
    fun h => ?_⟩
  constructor <;>
    simp [executeTransaction, writeContractQueueEntry, bigintTruthy, h]

/-- Witness for `write_contract_defaults`: a call omitting all three
optional amounts enqueues the documented defaults and executes without a
chain gas-price query. -/
theorem write_contract_defaults_witness :
    ((⟨"0xC", "increment", 0, none, none, none, none⟩ : WriteContractInput).gas = none
      ∧ (⟨"0xC", "increment", 0, none, none, none, none⟩ : WriteContractInput).gasPrice = none
      ∧ (⟨"0xC", "increment", 0, none, none, none, none⟩ : WriteContractInput).value = none)
    ∧ (writeContractQueueEntry ⟨"0xC", "increment", 0, none, none, none, none⟩).gas = some 600000
    ∧ (writeContractQueueEntry ⟨"0xC", "increment", 0, none, none, none, none⟩).gasPrice = some 1
    ∧ (writeContractQueueEntry ⟨"0xC", "increment", 0, none, none, none, none⟩).value = some 0
    ∧ ((executeTransaction
          (writeContractQueueEntry ⟨"0xC", "increment", 0, none, none, none, none⟩) 7
          ⟨"0xh", 21000, true⟩).2.1 = false
      ∧ (executeTransaction
          (writeContractQueueEntry ⟨"0xC", "increment", 0, none, none, none, none⟩) 7
          ⟨"0xh", 21000, true⟩).1.gasPrice = 1) := by
  have h := write_contract_defaults ⟨"0xC", "increment", 0, none, none, none, none⟩ 7
    ⟨"0xh", 21000, true⟩
  exact ⟨⟨rfl, rfl, rfl⟩, h.1 rfl, h.2.1 rfl, h.2.2.1 rfl, h.2.2.2 rfl⟩

end FiberChain
